import Mathlib

/-!
Shallow embedding of the aisafeguard core (Pipeline, Policy Engine, Guard,
scanner verdict logic) from `src/aisafeguard`, together with theorems
settling the specification claims.

Modelling conventions:
* Python floats (`score`, `threshold`) are modelled as rationals `ℚ`.
* Wall-clock duration fields (`duration_ms`, `total_duration_ms`,
  `timestamp`) are not modelled: no claim mentions them.
* Python dicts of strings are modelled as association lists with the
  insertion-order update semantics of dict assignment (`dictSet`).
* `asyncio.gather` over a tier is modelled as a `List.map`: the source
  records results in registration order, which is exactly the map order.
* The behaviour of a scanner (its `scan` coroutine) is a pure function
  `String → Option Ctx → ScanResult`; the `execute` wrapper stamps the
  scanner name and tier onto the result as in `scanners/base.py`.
-/

namespace AiSafeguard

/-- `models.Action`: remediation action, totally ordered by rank. -/
inductive Action where
  | LOG
  | WARN
  | REDACT
  | BLOCK
deriving DecidableEq, Repr

/-- Rank used by `Pipeline._resolve_action` (`pipeline.py` lines 94-99):
BLOCK > REDACT > WARN > LOG. -/
def Action.rank : Action → Nat
  | .LOG => 0
  | .WARN => 1
  | .REDACT => 2
  | .BLOCK => 3

/-- `models.Tier`: scanner performance tier. -/
inductive Tier where
  | FAST
  | MEDIUM
  | SLOW
deriving DecidableEq, Repr

/-- Python `dict[str, str]` as an association list (keys unique by use). -/
abbrev Ctx : Type := List (String × String)

/-- Python dict assignment `d[k] = v`: update in place if the key exists
(preserving its position), else append. -/
def dictSet (d : Ctx) (k v : String) : Ctx :=
  if d.any (fun p => p.1 = k) then
    d.map (fun p => if p.1 = k then (k, v) else p)
  else
    d ++ [(k, v)]

/-- Python dict lookup `d.get(k)`. -/
def dictGet (d : Ctx) (k : String) : Option String :=
  (d.find? (fun p => p.1 = k)).map (fun p => p.2)

/-- `models.Finding`: one issue found by a scanner.  The `metadata` dict is
kept as a string association list (the source stores `pattern` /
`entity_type` strings in it). -/
structure Finding where
  scanner : String
  category : String
  severity : String := "medium"
  description : String
  matched_text : Option String := none
  start : Option Nat := none
  finish : Option Nat := none
  metadata : List (String × String) := []
deriving DecidableEq, Repr

/-- `models.ScanResult`: result of one scanner execution.
(`duration_ms` is wall-clock time, not modelled.) -/
structure ScanResult where
  scanner : String
  passed : Bool
  score : ℚ := 1
  findings : List Finding := []
  sanitized : Option String := none
  tier : Tier := .FAST
deriving DecidableEq, Repr

/-- `models.PipelineResult`: aggregate of all ScanResults of one run.
(`total_duration_ms` is wall-clock time, not modelled.) -/
structure PipelineResult where
  passed : Bool
  results : List ScanResult := []
  action_taken : Action := .LOG
  sanitized : Option String := none
deriving DecidableEq, Repr

/-- `PipelineResult.failed_scanners` property: names of failed scanners. -/
def PipelineResult.failed_scanners (r : PipelineResult) : List String :=
  (r.results.filter (fun s => !s.passed)).map (fun s => s.scanner)

/-- `PipelineResult.findings` property: all findings across scanners. -/
def PipelineResult.allFindings (r : PipelineResult) : List Finding :=
  r.results.flatMap (fun s => s.findings)

/-- `models.Report`: one full guarded interaction (timestamp/metadata not
modelled). -/
structure Report where
  input_result : Option PipelineResult := none
  output_result : Option PipelineResult := none
  blocked : Bool := false
deriving DecidableEq, Repr

/-! ### Policy engine (`policy.py`) -/

/-- `policy.PolicyViolation`: the exception raised on BLOCK; carries the
full `PipelineResult` and the message naming the failed scanners. -/
structure PolicyViolation where
  result : PipelineResult
  message : String
deriving DecidableEq, Repr

/-- `policy.PolicyDecision`. -/
structure PolicyDecision where
  action : Action
  blocked : Bool
  sanitized : Option String := none
deriving DecidableEq, Repr

/-- `policy.PolicyEngine` state: a default action and the name→Action
override table. -/
structure PolicyEngine where
  default_action : Action := .BLOCK
  action_overrides : List (String × Action) := []

/-- `PolicyEngine.get_action`: override if present, else the default. -/
def PolicyEngine.getAction (e : PolicyEngine) (scanner_name : String) : Action :=
  ((e.action_overrides.find? (fun p => p.1 = scanner_name)).map (fun p => p.2)).getD
    e.default_action

/-- `PolicyEngine.decide` (`policy.py` lines 80-99).  The source
for-loop with `break` sets `action := BLOCK` exactly when some failed
configured action of some failed scan result is BLOCK; it is rendered as `List.any`. -/
def PolicyEngine.decide (e : PolicyEngine) (r : PipelineResult) : PolicyDecision :=
  if r.passed then
    { action := .LOG, blocked := false, sanitized := none }
  else
    let action :=
      if r.results.any (fun s => !s.passed && Decidable.decide (e.getAction s.scanner = .BLOCK)) then
        Action.BLOCK
      else
        r.action_taken
    { action := action
      blocked := Decidable.decide (action = Action.BLOCK)
      sanitized := if action = Action.REDACT then r.sanitized else none }

/-- The message built by `PolicyEngine.enforce` on a BLOCK. -/
def blockMessage (r : PipelineResult) : String :=
  "Blocked by scanners: " ++ String.intercalate ", " r.failed_scanners

/-- `PolicyEngine.enforce` (`policy.py` lines 47-78).  Raising
`PolicyViolation` is modelled as `Except.error`; the WARN/LOG branches
only log and return `None` (`Except.ok none`); REDACT returns the
sanitized text of the decision. -/
def PolicyEngine.enforce (e : PolicyEngine) (r : PipelineResult) :
    Except PolicyViolation (Option String) :=
  let d := e.decide r
  if d.action = Action.REDACT then
    Except.ok d.sanitized
  else if d.blocked then
    Except.error { result := r, message := blockMessage r }
  else
    Except.ok none

/-! ### Scanners and the Pipeline (`scanners/base.py`, `pipeline.py`) -/

/-- A scanner (`scanners/base.BaseScanner`): a name, a tier, and the pure
behaviour of its `scan` coroutine. -/
structure Scanner where
  name : String
  tier : Tier := .FAST
  scanRun : String → Option Ctx → ScanResult

/-- `BaseScanner.execute`: runs `scan` and stamps `scanner` and `tier`
onto the result (`duration_ms` stamping is wall-clock, not modelled). -/
def Scanner.execute (s : Scanner) (text : String) (context : Option Ctx) : ScanResult :=
  let r := s.scanRun text context
  { r with scanner := s.name, tier := s.tier }

/-- `pipeline.Pipeline` state. -/
structure Pipeline where
  scanners : List Scanner := []
  fail_action : Action := .BLOCK
  fail_fast : Bool := true
  scanner_actions : List (String × Action) := []

/-- `scanner_actions.get(name, fail_action)` in `_resolve_action`. -/
def Pipeline.configuredAction (p : Pipeline) (scanner_name : String) : Action :=
  ((p.scanner_actions.find? (fun q => q.1 = scanner_name)).map (fun q => q.2)).getD
    p.fail_action

/-- The loop body of `_resolve_action` (`pipeline.py` lines 101-104):
replace the selected action when the configured action of the failed
result ranks strictly higher. -/
def selectStep (p : Pipeline) (selected : Action) (r : ScanResult) : Action :=
  let action := p.configuredAction r.scanner
  if selected.rank < action.rank then action else selected

/-- `Pipeline._resolve_action` (`pipeline.py` lines 88-105): LOG if no
result failed, else the highest-ranked configured action among the failed
results (scanning left to right, replacing on strictly greater rank). -/
def Pipeline.resolveAction (p : Pipeline) (results : List ScanResult) : Action :=
  let failed_results := results.filter (fun r => !r.passed)
  if failed_results.isEmpty then
    Action.LOG
  else
    failed_results.foldl (selectStep p) Action.LOG

/-- Mutable locals of `Pipeline.run`, plus two pieces of instrumentation:
`stopped` records that the fail-fast `break` fired, and `executed` records
the names of every scanner whose `execute` was invoked (to state
"this scanner never ran" claims). -/
structure RunState where
  all_results : List ScanResult
  sanitized : String
  passed : Bool
  stopped : Bool
  executed : List String
deriving DecidableEq, Repr

/-- Initial state of `Pipeline.run` (`pipeline.py` lines 44-46). -/
def initState (text : String) : RunState :=
  { all_results := [], sanitized := text, passed := true, stopped := false,
    executed := [] }

/-- The per-result bookkeeping of `Pipeline.run` (`pipeline.py` lines
69-74): append the result, drop `passed` on a failure, and chain the
sanitized text when present. -/
def recordResult (acc : RunState) (result : ScanResult) : RunState :=
  { acc with
    all_results := acc.all_results ++ [result]
    passed := acc.passed && result.passed
    sanitized := result.sanitized.getD acc.sanitized }

/-- One iteration of the tier loop of `Pipeline.run` (`pipeline.py` lines
57-74).  The `break` of the source is modelled by the `stopped` flag: once set,
every later iteration is the identity.  Tier buckets built by the loop on
lines 48-55 preserve registration order, i.e. they are `List.filter` by
tier.  `asyncio.gather` returns the results of the tier in registration order,
so it is a `List.map`; each result is then folded into the locals exactly
as lines 69-74 do. -/
def Pipeline.runTier (p : Pipeline) (context : Option Ctx) (st : RunState)
    (tier : Tier) : RunState :=
  if st.stopped then st
  else
    let tier_scanners := p.scanners.filter (fun s => s.tier = tier)
    if tier_scanners.isEmpty then st
    else if p.fail_fast = true ∧ st.all_results ≠ [] ∧
        p.resolveAction st.all_results = Action.BLOCK then
      { st with stopped := true }
    else
      let tier_results := tier_scanners.map (fun s => s.execute st.sanitized context)
      tier_results.foldl recordResult
        { st with executed := st.executed ++ tier_scanners.map (fun s => s.name) }

/-- The state after the tier loop of `Pipeline.run` over FAST, MEDIUM, SLOW. -/
def Pipeline.runState (p : Pipeline) (text : String) (context : Option Ctx) : RunState :=
  [Tier.FAST, Tier.MEDIUM, Tier.SLOW].foldl (p.runTier context) (initState text)

/-- `Pipeline.run` (`pipeline.py` lines 37-86): final `PipelineResult`
with `sanitized` set only when it differs from the original text. -/
def Pipeline.run (p : Pipeline) (text : String) (context : Option Ctx) : PipelineResult :=
  let st := p.runState text context
  { passed := st.passed
    results := st.all_results
    action_taken := p.resolveAction st.all_results
    sanitized := if st.sanitized ≠ text then some st.sanitized else none }

/-- Names of the scanners whose `execute` was invoked during a run. -/
def Pipeline.executedScanners (p : Pipeline) (text : String) (context : Option Ctx) :
    List String :=
  (p.runState text context).executed

/-! ### Guard (`guard.py`) -/

/-- `guard.Guard` state after construction: the two pipelines and the
policy engine (config loading and the scanner registry are external
collaborators, not modelled). -/
structure Guard where
  input_pipeline : Pipeline
  output_pipeline : Pipeline
  policy : PolicyEngine

/-- Observable outcome of one `Guard.run` call: the returned `Report`,
the context dict of the caller after the call (`Guard.run` may mutate it in
place through the `ctx = context or {}` alias), and the context dict the
output pipeline was invoked with (`none` when no output scan happened). -/
structure GuardRunOut where
  report : Report
  callerCtx : Option Ctx
  outputCtx : Option Ctx
deriving DecidableEq, Repr

/-- The output-scan half of `Guard.run` (`guard.py` lines 213-220).
`ctx = context or \x7b\x7d` aliases the dict of the caller exactly when that dict is
truthy (non-empty); `if input_text:` is Python truthiness, so the
`input_text` key is written only for a supplied, non-empty input text and
carries the original `input_text` argument. -/
def Guard.runOutput (g : Guard) (input_text : Option String)
    (output_text : Option String) (context : Option Ctx)
    (input_result : Option PipelineResult) : GuardRunOut :=
  match output_text with
  | none =>
      { report := { input_result := input_result, output_result := none,
                    blocked := false }
        callerCtx := context, outputCtx := none }
  | some ot =>
      let aliased : Bool := match context with
        | some (_ :: _) => true
        | _ => false
      let ctx0 : Ctx := match context with
        | some d => if d = [] then [] else d
        | none => []
      let ctx1 : Ctx := match input_text with
        | some it => if it = "" then ctx0 else dictSet ctx0 "input_text" it
        | none => ctx0
      let output_result := g.output_pipeline.run ot (some ctx1)
      { report := { input_result := input_result
                    output_result := some output_result
                    blocked := !output_result.passed &&
                      Decidable.decide (output_result.action_taken = Action.BLOCK) }
        callerCtx := if aliased then some ctx1 else context
        outputCtx := some ctx1 }

/-- `Guard.run` (`guard.py` lines 197-222).  `scan_input`/`scan_output`
only log around `Pipeline.run`, so they are the pipeline runs themselves.
If the input scan is supplied, fails, and its `action_taken` is BLOCK,
the report is marked blocked and returned before any output scan. -/
def Guard.run (g : Guard) (input_text : Option String)
    (output_text : Option String) (context : Option Ctx) : GuardRunOut :=
  match input_text with
  | some it =>
      let input_result := g.input_pipeline.run it context
      if input_result.passed = false ∧ input_result.action_taken = Action.BLOCK then
        { report := { input_result := some input_result, output_result := none,
                      blocked := true }
          callerCtx := context, outputCtx := none }
      else
        g.runOutput (some it) output_text context (some input_result)
  | none => g.runOutput none output_text context none

/-! ### Scanner verdict logic (`scanners/prompt_injection.py`, `scanners/pii.py`)

The regex pattern tables (`INJECTION_PATTERNS`, `PII_PATTERNS`) are
external collaborators per the spec ("swappable rule tables"), so the
detection step is a parameter: each scan is modelled as a function of the
findings list the detector produced for the text. -/

/-- Python `max(a, b)` on floats: `b` when `a <= b`, else `a`
(kernel-computable, unlike the lattice `max` of `ℚ`). -/
def ratMax (a b : ℚ) : ℚ := if a ≤ b then b else a

/-- `SEVERITY_THRESHOLDS` table of `prompt_injection.py`. -/
def severityThresholds : List (Nat × String) :=
  [(1, "medium"), (2, "high"), (3, "critical")]

/-- `PromptInjectionScanner.scan` (`prompt_injection.py` lines 99-137),
after pattern matching produced `findings`: the score is
`max(0, 1 - unique_patterns * 0.3)` over the distinct `pattern` metadata
entries, severity is bumped from the table, and
`passed = score >= threshold` (inclusive). -/
def promptInjectionResult (threshold : ℚ) (findings : List Finding) : ScanResult :=
  let unique_patterns : Nat :=
    ((findings.map (fun f => dictGet f.metadata "pattern")).dedup).length
  let score : ℚ := ratMax 0 (1 - (unique_patterns : ℚ) * (3 / 10))
  let severity :=
    ((severityThresholds.find? (fun q => q.1 = min unique_patterns 3)).map
      (fun q => q.2)).getD "medium"
  { scanner := "prompt_injection"
    passed := Decidable.decide (threshold ≤ score)
    score := score
    findings := findings.map (fun f => { f with severity := severity }) }

/-- Stable insertion step for sorting findings by start position in
descending order: a finding is placed before the first element whose key
is not larger, so earlier findings stay first on equal keys (the
stability of Python sorted with reverse=True). -/
def insertByStartDesc (f : Finding) : List Finding → List Finding
  | [] => [f]
  | g :: gs =>
      if g.start.getD 0 ≤ f.start.getD 0 then f :: g :: gs
      else g :: insertByStartDesc f gs

/-- Stable sort of findings by start position, descending (the
`sorted(findings, key=..., reverse=True)` of `_redact_pii`). -/
def sortByStartDesc : List Finding → List Finding
  | [] => []
  | f :: fs => insertByStartDesc f (sortByStartDesc fs)

/-- `_redact_pii` (`pii.py` lines 63-72): splice a redaction marker over
each finding span, processing findings sorted by start position in
descending order. -/
def redactPii (text : String) (findings : List Finding) : String :=
  let sorted_findings := sortByStartDesc findings
  sorted_findings.foldl
    (fun result f =>
      match f.start, f.finish with
      | some s, some e =>
          let entity_type := (dictGet f.metadata "entity_type").getD "PII"
          ⟨(result.data.take s) ++ ("[" ++ entity_type ++ "_REDACTED]").data ++
            (result.data.drop e)⟩
      | _, _ => result)
    text

/-- `PIIInputScanner.scan` / `PIIOutputScanner.scan` (`pii.py` lines
88-97 and 113-122), after `_detect_pii` produced `findings`: passed is
`len(findings) == 0` (the configured `threshold` is not consulted), the
score is `1` or `max(0, 1 - len(findings) * 0.2)`, and sanitized is the
redacted text when findings exist. -/
def piiScanResult (threshold : ℚ) (text : String) (findings : List Finding) : ScanResult :=
  { scanner := "pii"
    passed := Decidable.decide (findings.length = 0)
    score := if findings.isEmpty then 1
             else ratMax 0 (1 - (findings.length : ℚ) * (1 / 5))
    findings := findings
    sanitized := if findings.isEmpty then none else some (redactPii text findings) }

/-! ### Concrete fixtures used by witnesses and counterexamples -/

/-- A FAST scanner that always fails (mirrors `FailingFastScanner` of the
test suite). -/
def alwaysFailScanner : Scanner :=
  { name := "fast_fail", tier := .FAST,
    scanRun := fun _ _ => { scanner := "fast_fail", passed := false, score := 0 } }

/-- A SLOW scanner that always passes (mirrors `ShouldNotRunSlowScanner`). -/
def slowScanner : Scanner :=
  { name := "slow_scan", tier := .SLOW,
    scanRun := fun _ _ => { scanner := "slow_scan", passed := true, score := 1 } }

/-- Fail-fast pipeline with a failing FAST scanner configured to BLOCK
and a SLOW scanner. -/
def failFastPipeline : Pipeline :=
  { scanners := [alwaysFailScanner, slowScanner]
    fail_action := .BLOCK
    fail_fast := true
    scanner_actions := [("fast_fail", Action.BLOCK)] }

/-- A pipeline with no scanners. -/
def emptyPipeline : Pipeline := { scanners := [] }

/-- A FAST input scanner that passes but rewrites the text. -/
def sanitizingScanner : Scanner :=
  { name := "pii", tier := .FAST,
    scanRun := fun _ _ =>
      { scanner := "pii", passed := true, score := 1, sanitized := some "cleaned" } }

/-- Guard whose input pipeline blocks every text. -/
def blockGuard : Guard :=
  { input_pipeline := failFastPipeline
    output_pipeline := emptyPipeline
    policy := {} }

/-- Guard whose input pipeline passes but sanitizes the text. -/
def sanitizeGuard : Guard :=
  { input_pipeline := { scanners := [sanitizingScanner] }
    output_pipeline := emptyPipeline
    policy := {} }

/-- The single EMAIL finding `_detect_pii` returns on the text
`a@b.co` (one match of the EMAIL pattern spanning the whole string). -/
def emailFinding : Finding :=
  { scanner := "pii", category := "pii", severity := "high",
    description := "EMAIL detected", matched_text := some "a@b.co",
    start := some 0, finish := some 6,
    metadata := [("entity_type", "EMAIL")] }

/-! ### Helper lemmas about the policy engine -/

/-- The `blocked` flag of a decision is exactly "the action is BLOCK". -/
theorem decide_blocked_eq (e : PolicyEngine) (r : PipelineResult) :
    (e.decide r).blocked = Decidable.decide ((e.decide r).action = Action.BLOCK) := by
  unfold PolicyEngine.decide
  split <;> rfl

/-- The `sanitized` field of a decision is the sanitized text of the
result exactly on REDACT. -/
theorem decide_sanitized_eq (e : PolicyEngine) (r : PipelineResult) :
    (e.decide r).sanitized =
      if (e.decide r).action = Action.REDACT then r.sanitized else none := by
  unfold PolicyEngine.decide
  split <;> rfl

/-- `enforce` written out over the fields of the decision. -/
theorem enforce_eq (e : PolicyEngine) (r : PipelineResult) :
    e.enforce r =
      (if (e.decide r).action = Action.REDACT then Except.ok ((e.decide r).sanitized)
       else if (e.decide r).blocked = true then
         Except.error { result := r, message := blockMessage r }
       else Except.ok none) := rfl

/-- On a WARN or LOG decision, `enforce` returns `none`. -/
theorem enforce_warn_log_none (e : PolicyEngine) (r : PipelineResult)
    (h : (e.decide r).action = Action.WARN ∨ (e.decide r).action = Action.LOG) :
    e.enforce r = Except.ok none := by
  rw [enforce_eq, decide_blocked_eq]
  rcases h with h | h <;> rw [h] <;> rfl

/-! ### Claim theorems: policy engine -/

/-- **C1.**  For every PipelineResult that did not pass, if some failed
ScanResult in it belongs to a scanner whose action in the override table
resolves to BLOCK, then `decide` returns action BLOCK with
`blocked = true` and `enforce` raises `PolicyViolation` — whatever the
`action_taken` of the PipelineResult is (it may rank lower, e.g. WARN). -/
theorem decide_escalates_failed_block_override (e : PolicyEngine) (r : PipelineResult)
    (hnp : r.passed = false) (s : ScanResult) (hs : s ∈ r.results)
    (hf : s.passed = false) (hb : e.getAction s.scanner = Action.BLOCK) :
    (e.decide r).action = Action.BLOCK ∧ (e.decide r).blocked = true ∧
      e.enforce r = Except.error { result := r, message := blockMessage r } := by
  have hany : (r.results.any fun t =>
      !t.passed && Decidable.decide (e.getAction t.scanner = Action.BLOCK)) = true := by
    rw [List.any_eq_true]
    refine ⟨s, hs, ?_⟩
    rw [hf, hb]
    rfl
  have hd : e.decide r = { action := Action.BLOCK, blocked := true, sanitized := none } := by
    unfold PolicyEngine.decide
    rw [hnp, hany]
    rfl
  refine ⟨by rw [hd], by rw [hd], ?_⟩
  rw [enforce_eq, hd]
  rfl

/-- Engine and result for the C1 witness: the pipeline-level
`action_taken` is WARN, but the failed scanner `block_scan` is overridden
to BLOCK. -/
def sampleEngine : PolicyEngine :=
  { default_action := .WARN
    action_overrides := [("warn_scan", Action.WARN), ("block_scan", Action.BLOCK)] }

/-- A failed result of the WARN-configured scanner. -/
def warnFail : ScanResult := { scanner := "warn_scan", passed := false }

/-- A failed result of the BLOCK-configured scanner. -/
def blockFail : ScanResult := { scanner := "block_scan", passed := false }

/-- A PipelineResult whose own aggregate action is only WARN. -/
def sampleBlockedResult : PipelineResult :=
  { passed := false, results := [warnFail, blockFail], action_taken := Action.WARN }

/-- Witness for C1 at a concrete engine and result whose `action_taken`
is WARN. -/
theorem decide_escalates_failed_block_override_witness :
    sampleBlockedResult.passed = false ∧
    blockFail ∈ sampleBlockedResult.results ∧
    blockFail.passed = false ∧
    sampleEngine.getAction "block_scan" = Action.BLOCK ∧
    sampleBlockedResult.action_taken = Action.WARN ∧
    (sampleEngine.decide sampleBlockedResult).action = Action.BLOCK ∧
    (sampleEngine.decide sampleBlockedResult).blocked = true ∧
    sampleEngine.enforce sampleBlockedResult =
      Except.error { result := sampleBlockedResult
                     message := blockMessage sampleBlockedResult } := by
  have hs : blockFail ∈ sampleBlockedResult.results :=
    List.mem_cons_of_mem warnFail (List.mem_cons_self blockFail [])
  have h := decide_escalates_failed_block_override sampleEngine sampleBlockedResult
    rfl blockFail hs rfl rfl
  exact ⟨rfl, hs, rfl, rfl, rfl, h.1, h.2.1, h.2.2⟩

/-- **C5.**  `enforce` raises `PolicyViolation` iff the decided action is
BLOCK; a raised violation carries the full PipelineResult and the message
naming the failed scanners; on a REDACT decision `enforce` returns the
sanitized text of the result instead of raising; on WARN or LOG it
returns `none`. -/
theorem enforce_raises_iff_block (e : PolicyEngine) (r : PipelineResult) :
    ((∃ v, e.enforce r = Except.error v) ↔ (e.decide r).action = Action.BLOCK) ∧
    (∀ v, e.enforce r = Except.error v →
      v.result = r ∧ v.message = blockMessage r) ∧
    ((e.decide r).action = Action.REDACT → e.enforce r = Except.ok r.sanitized) ∧
    (((e.decide r).action = Action.WARN ∨ (e.decide r).action = Action.LOG) →
      e.enforce r = Except.ok none) := by
  have hR : (e.decide r).action = Action.REDACT → e.enforce r = Except.ok r.sanitized := by
    intro h
    rw [enforce_eq, if_pos h, decide_sanitized_eq, if_pos h]
  have hB : (e.decide r).action = Action.BLOCK →
      e.enforce r = Except.error { result := r, message := blockMessage r } := by
    intro h
    rw [enforce_eq, decide_blocked_eq,
      if_neg (fun hc => by rw [h] at hc; cases hc), h]
    rfl
  refine ⟨⟨?_, ?_⟩, ?_, hR, enforce_warn_log_none e r⟩
  · rintro ⟨v, hv⟩
    rcases hA : (e.decide r).action with _ | _ | _ | _
    · rw [enforce_warn_log_none e r (Or.inr hA)] at hv
      cases hv
    · rw [enforce_warn_log_none e r (Or.inl hA)] at hv
      cases hv
    · rw [hR hA] at hv
      cases hv
    · rfl
  · intro h
    exact ⟨_, hB h⟩
  · intro v hv
    rcases hA : (e.decide r).action with _ | _ | _ | _
    · rw [enforce_warn_log_none e r (Or.inr hA)] at hv
      cases hv
    · rw [enforce_warn_log_none e r (Or.inl hA)] at hv
      cases hv
    · rw [hR hA] at hv
      cases hv
    · rw [hB hA] at hv
      cases hv
      exact ⟨rfl, rfl⟩

/-- Engine with the default BLOCK action for the C5 witness. -/
def blockEngine : PolicyEngine := {}

/-- A failed one-scanner PipelineResult for the C5 witness. -/
def failResult : PipelineResult :=
  { passed := false, results := [{ scanner := "x", passed := false }],
    action_taken := Action.BLOCK }

/-- Witness for C5: with the default-BLOCK engine a failed result
decides to BLOCK and `enforce` raises. -/
theorem enforce_raises_iff_block_witness :
    (blockEngine.decide failResult).action = Action.BLOCK ∧
    (∃ v, blockEngine.enforce failResult = Except.error v) := by
  have h := enforce_raises_iff_block blockEngine failResult
  exact ⟨rfl, h.1.mpr rfl⟩

/-- **C10.**  A REDACT decision has `blocked = false` and `sanitized`
equal to the `sanitized` field of the PipelineResult; when that field is
`none`, `enforce` returns `none` for the REDACT decision — the same
return value as the WARN/LOG outcome. -/
theorem redact_decision_none_indistinguishable (e : PolicyEngine) (r : PipelineResult)
    (h : (e.decide r).action = Action.REDACT) :
    (e.decide r).blocked = false ∧
    (e.decide r).sanitized = r.sanitized ∧
    (r.sanitized = none → e.enforce r = Except.ok none) ∧
    (∀ r2 : PipelineResult,
      ((e.decide r2).action = Action.WARN ∨ (e.decide r2).action = Action.LOG) →
      e.enforce r2 = Except.ok none) := by
  refine ⟨?_, ?_, ?_, fun r2 => enforce_warn_log_none e r2⟩
  · rw [decide_blocked_eq, h]
    rfl
  · rw [decide_sanitized_eq, if_pos h]
  · intro hn
    rw [enforce_eq, if_pos h, decide_sanitized_eq, if_pos h, hn]

/-- Engine whose default action is REDACT, for the C10 witness. -/
def redactEngine : PolicyEngine := { default_action := .REDACT }

/-- A failed result that produced no sanitized text. -/
def redactNoneResult : PipelineResult :=
  { passed := false, results := [{ scanner := "x", passed := false }],
    action_taken := Action.REDACT, sanitized := none }

/-- Witness for C10 at a REDACT decision with no sanitized text. -/
theorem redact_decision_none_indistinguishable_witness :
    (redactEngine.decide redactNoneResult).action = Action.REDACT ∧
    (redactEngine.decide redactNoneResult).blocked = false ∧
    redactEngine.enforce redactNoneResult = Except.ok none := by
  have h := redact_decision_none_indistinguishable redactEngine redactNoneResult rfl
  exact ⟨rfl, h.1, h.2.2.1 rfl⟩

/-! ### Helper lemmas about the pipeline -/

/-- `recordResult` preserves "`passed` is the AND of the recorded
results". -/
theorem recordResult_passed (acc : RunState) (result : ScanResult)
    (h : acc.passed = acc.all_results.all (fun r => r.passed)) :
    (recordResult acc result).passed =
      (recordResult acc result).all_results.all (fun r => r.passed) := by
  unfold recordResult
  simp only [List.all_append, List.all_cons, List.all_nil, Bool.and_true, h]

/-- Folding `recordResult` preserves the AND invariant. -/
theorem foldl_recordResult_passed (rs : List ScanResult) (acc : RunState)
    (h : acc.passed = acc.all_results.all (fun r => r.passed)) :
    (rs.foldl recordResult acc).passed =
      (rs.foldl recordResult acc).all_results.all (fun r => r.passed) := by
  induction rs generalizing acc with
  | nil => exact h
  | cons r rs ih => exact ih _ (recordResult_passed acc r h)

/-- One tier step preserves the AND invariant. -/
theorem runTier_passed (p : Pipeline) (context : Option Ctx) (st : RunState)
    (t : Tier) (h : st.passed = st.all_results.all (fun r => r.passed)) :
    (p.runTier context st t).passed =
      (p.runTier context st t).all_results.all (fun r => r.passed) := by
  simp only [Pipeline.runTier]
  split
  · exact h
  split
  · exact h
  split
  · exact h
  · exact foldl_recordResult_passed _ _ h

/-- The tier loop preserves the AND invariant. -/
theorem foldl_runTier_passed (p : Pipeline) (context : Option Ctx)
    (ts : List Tier) (st : RunState)
    (h : st.passed = st.all_results.all (fun r => r.passed)) :
    (ts.foldl (p.runTier context) st).passed =
      (ts.foldl (p.runTier context) st).all_results.all (fun r => r.passed) := by
  induction ts generalizing st with
  | nil => exact h
  | cons t ts ih => exact ih _ (runTier_passed p context st t h)

/-- **C2.**  For every `Pipeline.run` call, the returned PipelineResult
satisfies `passed = AND of r.passed over its results list` (true when
the list is empty). -/
theorem pipeline_passed_is_and (p : Pipeline) (text : String) (context : Option Ctx) :
    (p.run text context).passed =
      (p.run text context).results.all (fun r => r.passed) :=
  foldl_runTier_passed p context [Tier.FAST, Tier.MEDIUM, Tier.SLOW]
    (initState text) rfl

/-! ### Helper lemmas for action resolution -/

/-- `Action.rank` is injective. -/
theorem rank_inj : ∀ a b : Action, a.rank = b.rank → a = b := by
  intro a b h
  cases a <;> cases b <;> simp_all [Action.rank]

/-- A `selectStep` is either the configured action of the result or the
previous selection. -/
theorem selectStep_cases (p : Pipeline) (sel : Action) (r : ScanResult) :
    selectStep p sel r = p.configuredAction r.scanner ∨ selectStep p sel r = sel := by
  simp only [selectStep]
  split
  · exact Or.inl rfl
  · exact Or.inr rfl

/-- `selectStep` never lowers the rank. -/
theorem le_selectStep (p : Pipeline) (sel : Action) (r : ScanResult) :
    sel.rank ≤ (selectStep p sel r).rank := by
  simp only [selectStep]
  split
  · exact le_of_lt (by assumption)
  · exact le_refl _

/-- `selectStep` dominates the configured action of its result. -/
theorem conf_le_selectStep (p : Pipeline) (sel : Action) (r : ScanResult) :
    (p.configuredAction r.scanner).rank ≤ (selectStep p sel r).rank := by
  simp only [selectStep]
  split
  · exact le_refl _
  · exact le_of_not_lt (by assumption)

/-- The `selectStep` fold yields the initial action or a member of the
configured-action list. -/
theorem foldl_selectStep_mem (p : Pipeline) (l : List ScanResult) (init : Action) :
    l.foldl (selectStep p) init = init ∨
    l.foldl (selectStep p) init ∈ l.map (fun r => p.configuredAction r.scanner) := by
  induction l generalizing init with
  | nil => exact Or.inl rfl
  | cons r l ih =>
    rw [List.foldl_cons, List.map_cons]
    rcases ih (selectStep p init r) with h | h
    · rw [h]
      rcases selectStep_cases p init r with h2 | h2
      · rw [h2]
        exact Or.inr (List.mem_cons_self _ _)
      · rw [h2]
        exact Or.inl rfl
    · exact Or.inr (List.mem_cons_of_mem _ h)

/-- The `selectStep` fold dominates its initial action and every
configured action in the list. -/
theorem foldl_selectStep_ub (p : Pipeline) (l : List ScanResult) (init : Action) :
    init.rank ≤ (l.foldl (selectStep p) init).rank ∧
    ∀ a ∈ l.map (fun r => p.configuredAction r.scanner),
      a.rank ≤ (l.foldl (selectStep p) init).rank := by
  induction l generalizing init with
  | nil => exact ⟨le_refl _, by simp⟩
  | cons r l ih =>
    rw [List.foldl_cons, List.map_cons]
    obtain ⟨h1, h2⟩ := ih (selectStep p init r)
    refine ⟨le_trans (le_selectStep p init r) h1, ?_⟩
    intro a ha
    rcases List.mem_cons.mp ha with ha | ha
    · subst ha
      exact le_trans (conf_le_selectStep p init r) h1
    · exact h2 a ha

/-- The per-scanner configured actions of exactly the failed results of a
list, in order: the domain of step 4 of the run algorithm. -/
def failedConfiguredActions (p : Pipeline) (results : List ScanResult) : List Action :=
  (results.filter (fun r => !r.passed)).map (fun r => p.configuredAction r.scanner)

/-- **C4.**  The resolved action is LOG when no result failed, and
otherwise is the maximum under the rank order LOG < WARN < REDACT < BLOCK
of the per-scanner configured actions (override-map entry if present,
else the default fail action) over exactly the failed results: it is one
of those configured actions and dominates each of them in rank. -/
theorem resolve_action_is_rank_max (p : Pipeline) (results : List ScanResult) :
    (failedConfiguredActions p results = [] → p.resolveAction results = Action.LOG) ∧
    (failedConfiguredActions p results ≠ [] →
      p.resolveAction results ∈ failedConfiguredActions p results ∧
      ∀ a ∈ failedConfiguredActions p results,
        a.rank ≤ (p.resolveAction results).rank) := by
  unfold Pipeline.resolveAction failedConfiguredActions
  by_cases hE : (results.filter (fun r => !r.passed)).isEmpty
  · rw [if_pos hE]
    rw [List.isEmpty_iff] at hE
    rw [hE]
    exact ⟨fun _ => rfl, fun hne => absurd rfl hne⟩
  · rw [if_neg hE]
    refine ⟨fun hn => ?_, fun _ => ?_⟩
    · rw [List.map_eq_nil_iff] at hn
      rw [hn] at hE
      exact absurd rfl hE
    · set failed := results.filter (fun r => !r.passed) with hfailed
      obtain ⟨hub1, hub2⟩ := foldl_selectStep_ub p failed Action.LOG
      refine ⟨?_, hub2⟩
      rcases foldl_selectStep_mem p failed Action.LOG with h | h
      · have hne2 : failed ≠ [] := by
          intro hc
          rw [hc] at hE
          exact absurd rfl hE
        obtain ⟨r0, hr0⟩ := List.exists_mem_of_ne_nil failed hne2
        have ha0 : p.configuredAction r0.scanner ∈
            failed.map (fun r => p.configuredAction r.scanner) :=
          List.mem_map_of_mem _ hr0
        have h0 : (p.configuredAction r0.scanner).rank ≤ 0 := by
          have := hub2 _ ha0
          rw [h] at this
          exact this
        have hlow : p.configuredAction r0.scanner = Action.LOG :=
          rank_inj _ _ (Nat.le_antisymm h0 (Nat.zero_le _))
        rw [h]
        rw [hlow] at ha0
        exact ha0
      · exact h

/-- Pipeline fixture for the C4 witness: override map sends scanner a to
REDACT and b to WARN; default fail action WARN. -/
def samplePipeline : Pipeline :=
  { scanners := []
    fail_action := .WARN
    scanner_actions := [("a", Action.REDACT), ("b", Action.WARN)] }

/-- Two failed results and one passed result for the C4 witness. -/
def sampleResults : List ScanResult :=
  [{ scanner := "a", passed := false }, { scanner := "b", passed := false },
   { scanner := "c", passed := true }]

/-- Witness for C4 at a concrete pipeline and result list with failures. -/
theorem resolve_action_is_rank_max_witness :
    failedConfiguredActions samplePipeline sampleResults ≠ [] ∧
    samplePipeline.resolveAction sampleResults ∈
      failedConfiguredActions samplePipeline sampleResults ∧
    ∀ a ∈ failedConfiguredActions samplePipeline sampleResults,
      a.rank ≤ (samplePipeline.resolveAction sampleResults).rank := by
  have h := (resolve_action_is_rank_max samplePipeline sampleResults).2
    (by decide)
  exact ⟨by decide, h.1, h.2⟩

/-! ### Helper lemmas for fail-fast -/

/-- A stopped state is frozen by every later tier. -/
theorem runTier_stopped (p : Pipeline) (context : Option Ctx) (st : RunState)
    (t : Tier) (h : st.stopped = true) : p.runTier context st t = st := by
  unfold Pipeline.runTier
  rw [if_pos h]

/-- A BLOCK resolution needs at least one (failed) result. -/
theorem resolveAction_block_ne_nil (p : Pipeline) (results : List ScanResult)
    (h : p.resolveAction results = Action.BLOCK) : results ≠ [] := by
  intro hn
  subst hn
  exact Action.noConfusion h

/-- Once the results-so-far resolve to BLOCK (and fail-fast is on), a
tier step leaves results and executed scanners unchanged, and the BLOCK
resolution persists. -/
theorem runTier_frozen (p : Pipeline) (context : Option Ctx) (st : RunState)
    (t : Tier) (hff : p.fail_fast = true)
    (hblock : p.resolveAction st.all_results = Action.BLOCK) :
    (p.runTier context st t).all_results = st.all_results ∧
    (p.runTier context st t).executed = st.executed ∧
    p.resolveAction (p.runTier context st t).all_results = Action.BLOCK := by
  simp only [Pipeline.runTier]
  split
  · exact ⟨rfl, rfl, hblock⟩
  split
  · exact ⟨rfl, rfl, hblock⟩
  split
  · exact ⟨rfl, rfl, hblock⟩
  · rename_i hcond
    exact absurd ⟨hff, resolveAction_block_ne_nil p st.all_results hblock, hblock⟩ hcond

/-- The whole remaining tier loop is frozen after a BLOCK resolution. -/
theorem foldl_runTier_frozen (p : Pipeline) (context : Option Ctx)
    (ts : List Tier) (st : RunState) (hff : p.fail_fast = true)
    (hblock : p.resolveAction st.all_results = Action.BLOCK) :
    (ts.foldl (p.runTier context) st).all_results = st.all_results ∧
    (ts.foldl (p.runTier context) st).executed = st.executed := by
  induction ts generalizing st with
  | nil => exact ⟨rfl, rfl⟩
  | cons t ts ih =>
    obtain ⟨h1, h2, h3⟩ := runTier_frozen p context st t hff hblock
    obtain ⟨g1, g2⟩ := ih (p.runTier context st t) h3
    rw [List.foldl_cons]
    exact ⟨g1.trans h1, g2.trans h2⟩

/-- **C3.**  With fail-fast enabled, once the tiers processed so far
(`pre`) leave a state whose results resolve to BLOCK, the remaining tiers
(`post`) execute no scanner and contribute no ScanResult: the full run
has exactly the executed-scanner list and results list of the `pre`
prefix. -/
theorem fail_fast_skips_later_tiers (p : Pipeline) (text : String)
    (context : Option Ctx) (pre post : List Tier)
    (hsplit : [Tier.FAST, Tier.MEDIUM, Tier.SLOW] = pre ++ post)
    (hff : p.fail_fast = true)
    (hblock : p.resolveAction
      ((pre.foldl (p.runTier context) (initState text)).all_results) = Action.BLOCK) :
    p.executedScanners text context =
      (pre.foldl (p.runTier context) (initState text)).executed ∧
    (p.run text context).results =
      (pre.foldl (p.runTier context) (initState text)).all_results := by
  have hfold := foldl_runTier_frozen p context post
    (pre.foldl (p.runTier context) (initState text)) hff hblock
  constructor
  · show (p.runState text context).executed = _
    unfold Pipeline.runState
    rw [hsplit, List.foldl_append]
    exact hfold.2
  · show (p.runState text context).all_results = _
    unfold Pipeline.runState
    rw [hsplit, List.foldl_append]
    exact hfold.1

/-- Witness for C3: in the concrete fail-fast pipeline the FAST tier
already resolves to BLOCK, and the run executes only the FAST scanner —
the SLOW scanner never runs and contributes no result. -/
theorem fail_fast_skips_later_tiers_witness :
    failFastPipeline.resolveAction
      (([Tier.FAST].foldl (failFastPipeline.runTier none) (initState "hello")).all_results) =
        Action.BLOCK ∧
    failFastPipeline.executedScanners "hello" none = ["fast_fail"] ∧
    (failFastPipeline.run "hello" none).results =
      ([Tier.FAST].foldl (failFastPipeline.runTier none) (initState "hello")).all_results := by
  have h := fail_fast_skips_later_tiers failFastPipeline "hello" none
    [Tier.FAST] [Tier.MEDIUM, Tier.SLOW] rfl rfl (by decide)
  exact ⟨by decide, h.1.trans (by decide), h.2⟩

/-! ### Helper lemmas about dict update -/

/-- Updating an existing key in place makes it readable. -/
theorem dictGet_map_update (d : Ctx) (k v : String)
    (h : d.any (fun p => p.1 = k) = true) :
    dictGet (d.map (fun p => if p.1 = k then (k, v) else p)) k = some v := by
  induction d with
  | nil => cases h
  | cons p tl ih =>
    rw [List.map_cons]
    by_cases hp : p.1 = k
    · rw [if_pos hp]
      simp [dictGet, List.find?]
    · rw [if_neg hp]
      have h2 : tl.any (fun q => q.1 = k) = true := by
        rw [List.any_cons] at h
        simpa [hp] using h
      have htl := ih h2
      unfold dictGet at htl ⊢
      rwa [List.find?_cons_of_neg _ (by simpa using hp)]

/-- Appending a fresh key makes it readable. -/
theorem dictGet_append_new (d : Ctx) (k v : String)
    (h : d.any (fun p => p.1 = k) = false) :
    dictGet (d ++ [(k, v)]) k = some v := by
  induction d with
  | nil => simp [dictGet, List.find?]
  | cons p tl ih =>
    rw [List.any_cons] at h
    have hp : ¬(p.1 = k) := by
      intro hc
      rw [hc] at h
      simp at h
    have h2 : tl.any (fun q => q.1 = k) = false := by
      simpa [hp] using h
    have htl := ih h2
    rw [List.cons_append]
    unfold dictGet at htl ⊢
    rwa [List.find?_cons_of_neg _ (by simpa using hp)]

/-- Reading back a key just written with `dictSet`. -/
theorem dictGet_dictSet (d : Ctx) (k v : String) :
    dictGet (dictSet d k v) k = some v := by
  unfold dictSet
  by_cases h : d.any (fun p => p.1 = k) = true
  · rw [if_pos h]
    exact dictGet_map_update d k v h
  · rw [if_neg h]
    exact dictGet_append_new d k v (Bool.eq_false_iff.mpr h)

/-! ### Claim theorems: scanner threshold boundary -/

/-- **C8 (counterexample).**  The claim "score equal to the configured
threshold gives passed = true, for every scanner" fails on the PII
scanner: on the text `a@b.co`, whose detector output is the single EMAIL
finding, the computed score is 0.8; configuring the threshold to be that
very score (0.8) still yields `passed = false`, because the PII scan sets
`passed = (len(findings) == 0)` and never consults the threshold. -/
theorem threshold_boundary_cex :
    (piiScanResult ((piiScanResult 0 "a@b.co" [emailFinding]).score)
        "a@b.co" [emailFinding]).score =
      (piiScanResult 0 "a@b.co" [emailFinding]).score ∧
    (piiScanResult ((piiScanResult 0 "a@b.co" [emailFinding]).score)
        "a@b.co" [emailFinding]).passed = false ∧
    (piiScanResult 0 "a@b.co" [emailFinding]).score = 4 / 5 :=
  ⟨rfl, rfl, by norm_num [piiScanResult, ratMax]⟩

/-- **C8 (amended).**  The inclusive threshold boundary holds for the
prompt-injection scanner, whose verdict is `score >= threshold`: a score
exactly equal to the threshold yields `passed = true`.  The PII scanner
instead derives `passed` solely from the absence of findings, ignoring
its threshold, so the boundary property does not apply to it. -/
theorem threshold_boundary_amended :
    (∀ (threshold : ℚ) (findings : List Finding),
      (promptInjectionResult threshold findings).score = threshold →
      (promptInjectionResult threshold findings).passed = true) ∧
    (∀ (threshold : ℚ) (text : String) (findings : List Finding),
      (piiScanResult threshold text findings).passed =
        Decidable.decide (findings.length = 0)) := by
  constructor
  · intro th fs h
    have hle : th ≤ (promptInjectionResult th fs).score := le_of_eq h.symm
    exact decide_eq_true hle
  · intro th text fs
    rfl

/-- Witness for the amended C8 at the prompt-injection scanner with no
findings: the score is 1, a threshold equal to it passes. -/
theorem threshold_boundary_amended_witness :
    (promptInjectionResult ((promptInjectionResult 0 []).score) []).score =
      (promptInjectionResult 0 []).score ∧
    (promptInjectionResult ((promptInjectionResult 0 []).score) []).passed = true :=
  ⟨rfl, threshold_boundary_amended.1 ((promptInjectionResult 0 []).score) [] rfl⟩

/-! ### Claim theorems: Guard -/

/-- **C7.**  When an input text is supplied and its scan comes back
not-passed with `action_taken = BLOCK`, `Guard.run` returns a Report
with `blocked = true` and no output result, and the output pipeline is
never invoked. -/
theorem guard_input_block_short_circuit (g : Guard) (it : String)
    (output_text : Option String) (context : Option Ctx)
    (hp : (g.input_pipeline.run it context).passed = false)
    (hb : (g.input_pipeline.run it context).action_taken = Action.BLOCK) :
    (g.run (some it) output_text context).report.blocked = true ∧
    (g.run (some it) output_text context).report.output_result = none ∧
    (g.run (some it) output_text context).outputCtx = none := by
  simp only [Guard.run]
  rw [if_pos ⟨hp, hb⟩]
  exact ⟨rfl, rfl, rfl⟩

/-- Witness for C7: the concrete blocking guard marks the report blocked
and never produces an output result. -/
theorem guard_input_block_short_circuit_witness :
    (blockGuard.input_pipeline.run "hello" none).passed = false ∧
    (blockGuard.input_pipeline.run "hello" none).action_taken = Action.BLOCK ∧
    (blockGuard.run (some "hello") (some "resp") none).report.blocked = true ∧
    (blockGuard.run (some "hello") (some "resp") none).report.output_result = none ∧
    (blockGuard.run (some "hello") (some "resp") none).outputCtx = none := by
  have h := guard_input_block_short_circuit blockGuard "hello" (some "resp") none
    (by decide) (by decide)
  exact ⟨by decide, by decide, h.1, h.2.1, h.2.2⟩

/-- **C6 (counterexample).**  The claim says the output pipeline receives
the sanitized input text produced by the input scan.  Concretely: the
input scan of `secret` passes, does not block, and produces the
sanitized text `cleaned`, yet the context handed to the output pipeline
carries `input_text = secret` — the original argument, not the sanitized
text. -/
theorem guard_output_ctx_sanitized_cex :
    (sanitizeGuard.input_pipeline.run "secret" none).passed = true ∧
    ((sanitizeGuard.run (some "secret") (some "resp") none).report.input_result.map
      (fun r => r.sanitized)) = some (some "cleaned") ∧
    (sanitizeGuard.run (some "secret") (some "resp") none).outputCtx =
      some [("input_text", "secret")] ∧
    ("secret" : String) ≠ "cleaned" :=
  ⟨by decide, by decide, by decide, by decide⟩

/-- **C6 (amended).**  When a non-empty input text is supplied, its scan
does not short-circuit with BLOCK, and an output text is supplied, the
output pipeline is invoked with a context whose `input_text` entry is the
*original* `input_text` argument (not the sanitized text the input scan
may have produced). -/
theorem guard_output_ctx_original (g : Guard) (it ot : String) (context : Option Ctx)
    (hne : it ≠ "")
    (hnb : ¬((g.input_pipeline.run it context).passed = false ∧
             (g.input_pipeline.run it context).action_taken = Action.BLOCK)) :
    ∃ c : Ctx, (g.run (some it) (some ot) context).outputCtx = some c ∧
      dictGet c "input_text" = some it := by
  simp only [Guard.run]
  rw [if_neg hnb]
  simp only [Guard.runOutput]
  refine ⟨_, rfl, ?_⟩
  rw [if_neg hne]
  exact dictGet_dictSet _ "input_text" it

/-- Witness for the amended C6 at the sanitizing guard. -/
theorem guard_output_ctx_original_witness :
    ("secret" : String) ≠ "" ∧
    ¬((sanitizeGuard.input_pipeline.run "secret" none).passed = false ∧
      (sanitizeGuard.input_pipeline.run "secret" none).action_taken = Action.BLOCK) ∧
    ∃ c : Ctx, (sanitizeGuard.run (some "secret") (some "resp") none).outputCtx = some c ∧
      dictGet c "input_text" = some "secret" := by
  refine ⟨by decide, by decide, ?_⟩
  exact guard_output_ctx_original sanitizeGuard "secret" "resp" none (by decide) (by decide)

/-- **C9 (counterexample).**  The claim asserts the mutation for *every*
call with non-empty input text, an output text and a non-empty context
dict.  It fails when the input scan blocks: with the blocking guard,
`run("x", "y", {k: v})` returns early, and the caller-owned dict is left
unchanged with no `input_text` key. -/
theorem guard_ctx_mutation_cex :
    ("x" : String) ≠ "" ∧
    ([("k", "v")] : Ctx) ≠ [] ∧
    (blockGuard.run (some "x") (some "y") (some [("k", "v")])).callerCtx =
      some [("k", "v")] ∧
    dictGet [("k", "v")] "input_text" = none :=
  ⟨by decide, by decide, by decide, by decide⟩

/-- **C9 (amended).**  Provided additionally that the input scan does not
short-circuit with BLOCK: a call with non-empty input text, an output
text and a non-empty caller context dict mutates that dict in place,
setting its `input_text` key to the input text before the output scan;
an empty or absent context dict is instead replaced by a fresh dict and
the object of the caller is left unchanged (the latter even when the
input scan blocks). -/
theorem guard_ctx_mutation_amended (g : Guard) (it ot : String) (d : Ctx)
    (hne : it ≠ "") (hd : d ≠ [])
    (hnb : ¬((g.input_pipeline.run it (some d)).passed = false ∧
             (g.input_pipeline.run it (some d)).action_taken = Action.BLOCK)) :
    (g.run (some it) (some ot) (some d)).callerCtx =
      some (dictSet d "input_text" it) ∧
    ∀ (g2 : Guard) (it2 ot2 : String) (c2 : Option Ctx),
      (c2 = none ∨ c2 = some []) →
      (g2.run (some it2) (some ot2) c2).callerCtx = c2 := by
  constructor
  · rcases d with _ | ⟨p, ps⟩
    · exact absurd rfl hd
    · simp only [Guard.run]
      rw [if_neg hnb]
      simp only [Guard.runOutput]
      rw [if_neg (List.cons_ne_nil p ps), if_neg hne]
      rfl
  · rintro g2 it2 ot2 c2 (rfl | rfl)
    · simp only [Guard.run]
      split
      · rfl
      · rfl
    · simp only [Guard.run]
      split
      · rfl
      · rfl

/-- Witness for the amended C9: a passing guard with a non-empty context
dict gets the `input_text` entry written into the caller dict. -/
theorem guard_ctx_mutation_amended_witness :
    ("secret" : String) ≠ "" ∧
    ([("k", "v")] : Ctx) ≠ [] ∧
    ¬((sanitizeGuard.input_pipeline.run "secret" (some [("k", "v")])).passed = false ∧
      (sanitizeGuard.input_pipeline.run "secret" (some [("k", "v")])).action_taken =
        Action.BLOCK) ∧
    (sanitizeGuard.run (some "secret") (some "resp") (some [("k", "v")])).callerCtx =
      some (dictSet [("k", "v")] "input_text" "secret") := by
  refine ⟨by decide, by decide, by decide, ?_⟩
  exact (guard_ctx_mutation_amended sanitizeGuard "secret" "resp" [("k", "v")]
    (by decide) (by decide) (by decide)).1

end AiSafeguard
